import Mathlib

/-!
Shallow embedding of the school-savings backend (tabungan-sekolah-smp).

The handlers in `src/server/src/handlers` are thin layers over a relational
store.  We model the store as lists of records (one list per table) and each
handler as a pure Lean function translating the handler body statement by
statement: drizzle/SQL constructs (inner join, left join, CASE, SUM/COUNT/AVG
with their NULL semantics, ORDER BY ... DESC, LIMIT) become explicit list
operations, and JavaScript truthiness tests (`limit ? ... : ...`,
`if (filter?.student_id)`, `x ? parseFloat(x) : 0`, `s || '0'`) are modelled
exactly as the source writes them.  Currency amounts are `numeric(12,2)`
columns, i.e. exact decimals; we model them as rationals.  Timestamps and
dates are modelled as integers; the current clock value is passed explicitly
where the source calls `new Date()`.
-/

namespace Tabungan

/-- `student_status` enum of `db/schema.ts`. -/
inductive StudentStatus
  | active
  | graduated
  | transferred
deriving DecidableEq, Repr

/-- `transaction_type` enum of `db/schema.ts`. -/
inductive TransactionType
  | deposit
  | withdrawal
deriving DecidableEq, Repr

/-- `teacher_role` enum of `db/schema.ts`. -/
inductive TeacherRole
  | homeroom_teacher
  | other
deriving DecidableEq, Repr

/-- `gender` enum of `db/schema.ts`. -/
inductive Gender
  | male
  | female
deriving DecidableEq, Repr

/-- Row of `teachers` (`db/schema.ts`). -/
structure Teacher where
  id : Nat
  name : String
  email : String
  role : TeacherRole
  created_at : Int
  updated_at : Int
deriving DecidableEq, Repr

/-- Row of `classes` (`db/schema.ts`); `homeroom_teacher_id` is nullable. -/
structure Class where
  id : Nat
  name : String
  homeroom_teacher_id : Option Nat
  created_at : Int
  updated_at : Int
deriving DecidableEq, Repr

/-- Row of `students` (`db/schema.ts`). -/
structure Student where
  id : Nat
  name : String
  gender : Gender
  nisn : String
  nis : String
  class_id : Nat
  phone : Option String
  email : Option String
  bank_name : Option String
  account_number : Option String
  status : StudentStatus
  created_at : Int
  updated_at : Int
deriving DecidableEq, Repr

/-- Row of `transactions` (`db/schema.ts`); `amount` is `numeric(12,2)`,
an exact decimal, modelled as a rational. -/
structure Transaction where
  id : Nat
  date : Int
  type : TransactionType
  amount : ℚ
  notes : Option String
  student_id : Nat
  created_at : Int
  updated_at : Int
deriving DecidableEq, Repr

/-- The relational store: one list per table (aspirations and schools play no
role in the claims under study). -/
structure Store where
  teachers : List Teacher
  classes : List Class
  students : List Student
  transactions : List Transaction
deriving DecidableEq, Repr

/-- Well-formedness guaranteed by the database schema (`db/schema.ts`):
primary keys are unique and foreign keys reference existing rows. -/
structure Store.WF (s : Store) : Prop where
  students_nodup : (s.students.map (·.id)).Nodup
  classes_nodup : (s.classes.map (·.id)).Nodup
  fk_student_class : ∀ st ∈ s.students, ∃ c ∈ s.classes, c.id = st.class_id
  fk_class_teacher : ∀ c ∈ s.classes,
    c.homeroom_teacher_id = none ∨ ∃ th ∈ s.teachers, some th.id = c.homeroom_teacher_id

/-- SQL `SUM` over an aggregate query: `NULL` (here `none`) when there are no
input rows, otherwise the exact numeric sum. -/
def sqlSumAgg (l : List ℚ) : Option ℚ :=
  if l.isEmpty then none else some l.sum

/-- SQL `SUM` over nullable values inside a grouped query: `NULL` inputs are
skipped; the result is `NULL` iff every input is `NULL`. -/
def sqlSum (l : List (Option ℚ)) : Option ℚ :=
  sqlSumAgg (l.filterMap id)

/-- SQL `COUNT(expr)`: counts the non-`NULL` inputs. -/
def sqlCount (l : List (Option Nat)) : Nat :=
  (l.filterMap id).length

/-- SQL `COUNT(DISTINCT expr)`: counts the distinct non-`NULL` inputs. -/
def sqlCountDistinct (l : List (Option Nat)) : Nat :=
  (l.filterMap id).dedup.length

/-- SQL `AVG`: `NULL` inputs are skipped; `NULL` when every input is `NULL`,
otherwise the exact mean of the non-`NULL` inputs. -/
def sqlAvg (l : List (Option ℚ)) : Option ℚ :=
  let vs := l.filterMap id
  if vs.isEmpty then none else some (vs.sum / (vs.length : ℚ))

/-!  ## Balance engine (`transaction_handlers.ts`, `getStudentBalance`)  -/

/-- `getStudentBalance` (`transaction_handlers.ts:297-343`): verify the
student exists, run one `SUM` query over the student's deposits and one over
its withdrawals, coerce a `NULL`/falsy total to `0`
(`depositsResult[0]?.total ? parseFloat(...) : 0`), and return the
difference. -/
def getStudentBalance (s : Store) (studentId : Nat) : Except String ℚ :=
  if (s.students.filter (fun st => decide (st.id = studentId))).isEmpty then
    .error ("Student with id " ++ toString studentId ++ " not found")
  else
    let depositsTotal := sqlSumAgg
      (((s.transactions.filter (fun t =>
          decide (t.student_id = studentId ∧ t.type = TransactionType.deposit))).map (·.amount)))
    let withdrawalsTotal := sqlSumAgg
      (((s.transactions.filter (fun t =>
          decide (t.student_id = studentId ∧ t.type = TransactionType.withdrawal))).map (·.amount)))
    let totalDeposits := match depositsTotal with
      | some v => v
      | none => 0
    let totalWithdrawals := match withdrawalsTotal with
      | some v => v
      | none => 0
    .ok (totalDeposits - totalWithdrawals)

/-!  ## Leaderboard engine (`leaderboard_handlers.ts`)  -/

/-- Result row of the student leaderboards (`schema.ts`,
`studentLeaderboardSchema`). -/
structure StudentLeaderboard where
  student_id : Nat
  student_name : String
  class_name : String
  total_deposits : ℚ
  transaction_count : Nat
  current_balance : ℚ
deriving DecidableEq, Repr

/-- Result row of the class leaderboard (`schema.ts`,
`classLeaderboardSchema`). -/
structure ClassLeaderboard where
  class_id : Nat
  class_name : String
  total_deposits : ℚ
  total_students : Nat
  average_balance : ℚ
deriving DecidableEq, Repr

/-- Stable insertion of `a` into `l`, placing `a` after every earlier element
whose key is at least `key a` (models the descending `ORDER BY`). -/
def insertDesc (key : α → ℚ) (a : α) : List α → List α
  | [] => [a]
  | b :: l => if key b < key a then a :: b :: l else b :: insertDesc key a l

/-- Deterministic model of `ORDER BY key DESC`: insertion sort, descending. -/
def sortDesc (key : α → ℚ) : List α → List α
  | [] => []
  | a :: l => insertDesc key a (sortDesc key l)

/-- Model of `limit ? baseQuery.limit(limit) : baseQuery`: in JavaScript `0`
is falsy, so a zero limit leaves the query untruncated. -/
def applyLimit (limit : Option Nat) (l : List α) : List α :=
  match limit with
  | none => l
  | some n => if n = 0 then l else l.take n

/-- `students LEFT JOIN transactions ON students.id = transactions.student_id`
restricted to one student: its transaction rows, or a single all-`NULL`
right-hand row when it has none. -/
def leftJoinTx (s : Store) (st : Student) : List (Option Transaction) :=
  let ts := s.transactions.filter (fun t => decide (t.student_id = st.id))
  if ts.isEmpty then [none] else ts.map some

/-- `CASE WHEN type = 'deposit' THEN amount ELSE 0 END` on a nullable
transaction row: an unmatched (`NULL`) row falls into the `ELSE 0` branch. -/
def caseDepositAmount : Option Transaction → ℚ
  | none => 0
  | some t => if t.type = TransactionType.deposit then t.amount else 0

/-- `CASE WHEN type = 'deposit' THEN amount ELSE -amount END` on a nullable
transaction row: on an unmatched row `-NULL` is `NULL`. -/
def caseSignedAmount : Option Transaction → Option ℚ
  | none => none
  | some t => some (if t.type = TransactionType.deposit then t.amount else -t.amount)

/-- The grouped row the student-leaderboard queries compute for one active
student joined to its class: the three aggregates over the left-joined
transaction rows, with the handler's `parseFloat(x || '0')` and `x || 0`
coercions of `NULL` aggregates to `0`. -/
def studentRow (s : Store) (st : Student) (className : String) : StudentLeaderboard :=
  let rows := leftJoinTx s st
  { student_id := st.id
    student_name := st.name
    class_name := className
    total_deposits := (sqlSum (rows.map (fun r => some (caseDepositAmount r)))).getD 0
    transaction_count := sqlCount (rows.map (fun r => r.map (·.id)))
    current_balance := (sqlSum (rows.map caseSignedAmount)).getD 0 }

/-- `students INNER JOIN classes ON students.class_id = classes.id`. -/
def studentsJoinClasses (s : Store) : List (Student × Class) :=
  s.students.flatMap (fun st =>
    (s.classes.filter (fun c => decide (c.id = st.class_id))).map (fun c => (st, c)))

/-- `getStudentLeaderboard` (`leaderboard_handlers.ts:15-47`): active students
joined to their class, grouped per student, ordered by total deposits
descending, with the JS-falsy limit applied last. -/
def getStudentLeaderboard (s : Store) (limit : Option Nat) : List StudentLeaderboard :=
  let joined := (studentsJoinClasses s).filter
    (fun p => decide (p.1.status = StudentStatus.active))
  applyLimit limit (sortDesc (·.total_deposits) (joined.map (fun p => studentRow s p.1 p.2.name)))

/-- `getStudentLeaderboardByClass` (`leaderboard_handlers.ts:83-118`): as
`getStudentLeaderboard` with the additional `class_id = classId` condition. -/
def getStudentLeaderboardByClass (s : Store) (classId : Nat) (limit : Option Nat) :
    List StudentLeaderboard :=
  let joined := (studentsJoinClasses s).filter
    (fun p => decide (p.1.class_id = classId ∧ p.1.status = StudentStatus.active))
  applyLimit limit (sortDesc (·.total_deposits) (joined.map (fun p => studentRow s p.1 p.2.name)))

/-- `getStudentLeaderboardByTeacher` (`leaderboard_handlers.ts:120-155`): as
`getStudentLeaderboard` restricted to classes whose homeroom teacher is
`teacherId`. -/
def getStudentLeaderboardByTeacher (s : Store) (teacherId : Nat) (limit : Option Nat) :
    List StudentLeaderboard :=
  let joined := (studentsJoinClasses s).filter
    (fun p => decide (p.2.homeroom_teacher_id = some teacherId ∧
      p.1.status = StudentStatus.active))
  applyLimit limit (sortDesc (·.total_deposits) (joined.map (fun p => studentRow s p.1 p.2.name)))

/-- The join rows one class contributes to the class-leaderboard query:
`classes LEFT JOIN students ON class_id LEFT JOIN transactions ON
(student match AND student is active)`.  A class without students yields one
row with both sides `NULL`; a student without matching transactions (in
particular every non-active student) yields one row with a `NULL`
transaction.  `classPiece` is the block of join rows one student
contributes. -/
def classPiece (txs : List Transaction) (st : Student) :
    List (Option Student × Option Transaction) :=
  let ts := txs.filter (fun t =>
    decide (t.student_id = st.id ∧ st.status = StudentStatus.active))
  if ts.isEmpty then [(some st, none)] else ts.map (fun t => (some st, some t))

def classJoinRows (s : Store) (c : Class) : List (Option Student × Option Transaction) :=
  let sts := s.students.filter (fun st => decide (st.class_id = c.id))
  if sts.isEmpty then [(none, none)]
  else sts.flatMap (classPiece s.transactions)

/-- `CASE WHEN status = 'active' THEN students.id END` on a nullable student
row (`NULL` without an `ELSE`). -/
def caseActiveId : Option Student → Option Nat
  | none => none
  | some st => if st.status = StudentStatus.active then some st.id else none

/-- The grouped row `getClassLeaderboard` computes for one class. -/
def classRow (s : Store) (c : Class) : ClassLeaderboard :=
  let rows := classJoinRows s c
  { class_id := c.id
    class_name := c.name
    total_deposits := (sqlSum (rows.map (fun r => some (caseDepositAmount r.2)))).getD 0
    total_students := sqlCountDistinct (rows.map (fun r => caseActiveId r.1))
    average_balance := (sqlAvg (rows.map (fun r => caseSignedAmount r.2))).getD 0 }

/-- `getClassLeaderboard` (`leaderboard_handlers.ts:49-81`): one grouped row
per class, ordered by total deposits descending, with the JS-falsy limit. -/
def getClassLeaderboard (s : Store) (limit : Option Nat) : List ClassLeaderboard :=
  applyLimit limit (sortDesc (·.total_deposits) (s.classes.map (fun c => classRow s c)))

/-!  ## Transaction report (`transaction_handlers.ts`, `getTransactionReport`)  -/

/-- `transactionFilterSchema` (`schema.ts`): every field optional; `notes` of
the zod filter does not exist; dates are `Date`s, modelled as integers. -/
structure TransactionFilter where
  student_id : Option Nat
  class_id : Option Nat
  start_date : Option Int
  end_date : Option Int
  type : Option TransactionType
deriving DecidableEq, Repr

/-- Result row of `getTransactionReport` (`schema.ts`,
`transactionReportSchema` shape). -/
structure TransactionReport where
  transaction_id : Nat
  date : Int
  type : TransactionType
  amount : ℚ
  notes : Option String
  student_name : String
  class_name : String
deriving DecidableEq, Repr

/-- `transactions INNER JOIN students ON student_id INNER JOIN classes ON
class_id`, projected to the report columns
(`transaction_handlers.ts:246-257`). -/
def reportJoin (s : Store) : List (Transaction × Student × Class) :=
  s.transactions.flatMap (fun t =>
    (s.students.filter (fun st => decide (st.id = t.student_id))).flatMap (fun st =>
      (s.classes.filter (fun c => decide (c.id = st.class_id))).map (fun c => (t, st, c))))

/-- The conjunction of conditions `getTransactionReport` pushes for a given
filter (`transaction_handlers.ts:259-279`).  Each `if (filter?.field)` is a
JavaScript truthiness test: a `student_id`/`class_id` equal to `0` is falsy
and pushes no condition; a provided `Date` or type string is always truthy. -/
def reportCond (f : TransactionFilter) (t : Transaction) (st : Student) : Bool :=
  (match f.student_id with
    | some sid => decide (sid = 0) || decide (t.student_id = sid)
    | none => true) &&
  (match f.class_id with
    | some cid => decide (cid = 0) || decide (st.class_id = cid)
    | none => true) &&
  (match f.start_date with
    | some d => decide (d ≤ t.date)
    | none => true) &&
  (match f.end_date with
    | some d => decide (t.date ≤ d)
    | none => true) &&
  (match f.type with
    | some ty => decide (t.type = ty)
    | none => true)

/-- Projection of a join row to a report row. -/
def reportRowOf (r : Transaction × Student × Class) : TransactionReport :=
  { transaction_id := r.1.id
    date := r.1.date
    type := r.1.type
    amount := r.1.amount
    notes := r.1.notes
    student_name := r.2.1.name
    class_name := r.2.2.name }

/-- `getTransactionReport` (`transaction_handlers.ts:244-295`): the three-table
join, filtered by the pushed conditions when a filter is provided. -/
def getTransactionReport (s : Store) (filter : Option TransactionFilter) :
    List TransactionReport :=
  let joined := reportJoin s
  let filtered := match filter with
    | none => joined
    | some f => joined.filter (fun r => reportCond f r.1 r.2.1)
  filtered.map reportRowOf

/-- Modelled from the spec wording of the claim, for the refinement
comparison: the transactions satisfying the plain conjunction of all provided
filter fields (true equality on `student_id` and `class_id`, inclusive date
bounds, equality on type), each joined with its student's and class's
names. -/
def reportCondSpec (f : TransactionFilter) (t : Transaction) (st : Student) : Bool :=
  (match f.student_id with
    | some sid => decide (t.student_id = sid)
    | none => true) &&
  (match f.class_id with
    | some cid => decide (st.class_id = cid)
    | none => true) &&
  (match f.start_date with
    | some d => decide (d ≤ t.date)
    | none => true) &&
  (match f.end_date with
    | some d => decide (t.date ≤ d)
    | none => true) &&
  (match f.type with
    | some ty => decide (t.type = ty)
    | none => true)

/-- Modelled from the spec wording of the claim: the report an implementation
of the claimed filter semantics would return. -/
def reportSpec (s : Store) (filter : Option TransactionFilter) :
    List TransactionReport :=
  let joined := reportJoin s
  let filtered := match filter with
    | none => joined
    | some f => joined.filter (fun r => reportCondSpec f r.1 r.2.1)
  filtered.map reportRowOf

/-!  ## Transaction CRUD (`transaction_handlers.ts`)  -/

/-- `createTransactionInputSchema` (`schema.ts`). -/
structure CreateTransactionInput where
  date : Int
  type : TransactionType
  amount : ℚ
  notes : Option String
  student_id : Nat
deriving DecidableEq, Repr

/-- `updateTransactionInputSchema` (`schema.ts`): all fields but `id`
optional; `notes` is nullable and optional. -/
structure UpdateTransactionInput where
  id : Nat
  date : Option Int
  type : Option TransactionType
  amount : Option ℚ
  notes : Option (Option String)
  student_id : Option Nat
deriving DecidableEq, Repr

/-- `createTransaction` (`transaction_handlers.ts:17-49`): verify the student
exists, then insert the row.  The serial id the database assigns and the
clock value for the timestamp defaults are passed explicitly. -/
def createTransaction (s : Store) (input : CreateTransactionInput)
    (newId : Nat) (now : Int) : Except String Transaction × Store :=
  if (s.students.filter (fun st => decide (st.id = input.student_id))).isEmpty then
    (.error ("Student with id " ++ toString input.student_id ++ " not found"), s)
  else
    let t : Transaction :=
      { id := newId
        date := input.date
        type := input.type
        amount := input.amount
        notes := input.notes
        student_id := input.student_id
        created_at := now
        updated_at := now }
    (.ok t, { s with transactions := s.transactions ++ [t] })

/-- The `updateData` object of `updateTransaction`
(`transaction_handlers.ts:149-154`) applied to a row: only the supplied
fields change.  The source never writes `updated_at` (and the column has no
on-update default in `db/schema.ts`), so the timestamp keeps its old value. -/
def applyTransactionUpdate (input : UpdateTransactionInput) (t : Transaction) :
    Transaction :=
  { t with
    date := input.date.getD t.date
    type := input.type.getD t.type
    amount := input.amount.getD t.amount
    notes := input.notes.getD t.notes
    student_id := input.student_id.getD t.student_id }

/-- Whether the `updateData` object of `updateTransaction` is non-empty
(drizzle's `update().set({})` raises an error on an empty object). -/
def UpdateTransactionInput.hasField (input : UpdateTransactionInput) : Bool :=
  input.date.isSome || input.type.isSome || input.amount.isSome ||
    input.notes.isSome || input.student_id.isSome

/-- `updateTransaction` (`transaction_handlers.ts:129-171`): verify the
transaction exists; when a truthy `student_id` differing from the current one
is supplied, verify that student exists; then apply the partial update.  Note
the guard `if (input.student_id && input.student_id !== existing.student_id)`
uses JS truthiness on the id. -/
def updateTransaction (s : Store) (input : UpdateTransactionInput) :
    Except String Transaction × Store :=
  match s.transactions.find? (fun t => decide (t.id = input.id)) with
  | none => (.error ("Transaction with id " ++ toString input.id ++ " not found"), s)
  | some existing =>
    let studentMissing : Bool :=
      match input.student_id with
      | some sid =>
        if sid ≠ 0 ∧ sid ≠ existing.student_id then
          (s.students.filter (fun st => decide (st.id = sid))).isEmpty
        else false
      | none => false
    if studentMissing then
      (.error ("Student with id " ++ toString (input.student_id.getD 0) ++ " not found"), s)
    else if input.hasField then
      let ts : List Transaction := s.transactions.map (fun t =>
        if t.id = input.id then applyTransactionUpdate input t else t)
      match ts.find? (fun t => decide (t.id = input.id)) with
      | some t => (.ok t, { s with transactions := ts })
      | none => (.error "No rows returned", { s with transactions := ts })
    else
      (.error "No values to set", s)

/-- `deleteTransaction` (`transaction_handlers.ts:173-188`): verify the
transaction exists, then delete it. -/
def deleteTransaction (s : Store) (id : Nat) : Except String Unit × Store :=
  match s.transactions.find? (fun t => decide (t.id = id)) with
  | none => (.error ("Transaction with id " ++ toString id ++ " not found"), s)
  | some _ =>
    (.ok (), { s with transactions := s.transactions.filter (fun t => !decide (t.id = id)) })

/-!  ## Student update (`student_handlers.ts`, `updateStudent`)  -/

/-- `updateStudentInputSchema` (`schema.ts`): all fields but `id` optional;
the nullable text columns are nullable and optional. -/
structure UpdateStudentInput where
  id : Nat
  name : Option String
  gender : Option Gender
  nisn : Option String
  nis : Option String
  class_id : Option Nat
  phone : Option (Option String)
  email : Option (Option String)
  bank_name : Option (Option String)
  account_number : Option (Option String)
  status : Option StudentStatus
deriving DecidableEq, Repr

/-- The `updateData` object of `updateStudent` (`student_handlers.ts:62-76`)
applied to a row: only supplied fields change, and `updated_at` is always set
to the current clock value (`updateData.updated_at = new Date()`). -/
def applyStudentUpdate (input : UpdateStudentInput) (now : Int) (st : Student) :
    Student :=
  { st with
    name := input.name.getD st.name
    gender := input.gender.getD st.gender
    nisn := input.nisn.getD st.nisn
    nis := input.nis.getD st.nis
    class_id := input.class_id.getD st.class_id
    phone := input.phone.getD st.phone
    email := input.email.getD st.email
    bank_name := input.bank_name.getD st.bank_name
    account_number := input.account_number.getD st.account_number
    status := input.status.getD st.status
    updated_at := now }

/-- `updateStudent` (`student_handlers.ts:59-93`): apply the partial update
with refreshed `updated_at`; throw NotFound when the `UPDATE ... RETURNING`
matched no row. -/
def updateStudent (s : Store) (input : UpdateStudentInput) (now : Int) :
    Except String Student × Store :=
  let ss := s.students.map (fun st =>
    if st.id = input.id then applyStudentUpdate input now st else st)
  match ss.find? (fun st => decide (st.id = input.id)) with
  | some st => (.ok st, { s with students := ss })
  | none => (.error ("Student with id " ++ toString input.id ++ " not found"), { s with students := ss })

/-!  ## General lemmas about the query combinators  -/

theorem insertDesc_perm (key : α → ℚ) (a : α) (l : List α) :
    (insertDesc key a l).Perm (a :: l) := by
  induction l with
  | nil => simp [insertDesc]
  | cons b l ih =>
    simp only [insertDesc]
    split
    · exact List.Perm.refl _
    · exact (List.Perm.cons b ih).trans (List.Perm.swap a b l)

theorem sortDesc_perm (key : α → ℚ) (l : List α) :
    (sortDesc key l).Perm l := by
  induction l with
  | nil => simp [sortDesc]
  | cons a l ih =>
    exact (insertDesc_perm key a (sortDesc key l)).trans (List.Perm.cons a ih)

theorem mem_sortDesc {key : α → ℚ} {l : List α} {x : α} :
    x ∈ sortDesc key l ↔ x ∈ l :=
  (sortDesc_perm key l).mem_iff

theorem length_sortDesc (key : α → ℚ) (l : List α) :
    (sortDesc key l).length = l.length :=
  (sortDesc_perm key l).length_eq

theorem pairwise_insertDesc {key : α → ℚ} {l : List α} (a : α)
    (h : l.Pairwise (fun x y => key y ≤ key x)) :
    (insertDesc key a l).Pairwise (fun x y => key y ≤ key x) := by
  induction l with
  | nil => simp [insertDesc]
  | cons b l ih =>
    rcases List.pairwise_cons.mp h with ⟨hb, hl⟩
    simp only [insertDesc]
    split
    · rename_i hlt
      refine List.pairwise_cons.mpr ⟨?_, h⟩
      intro x hx
      rcases List.mem_cons.mp hx with rfl | hx
      · exact le_of_lt hlt
      · exact le_trans (hb x hx) (le_of_lt hlt)
    · rename_i hnlt
      refine List.pairwise_cons.mpr ⟨?_, ih hl⟩
      intro x hx
      rcases List.mem_cons.mp ((insertDesc_perm key a l).mem_iff.mp hx) with rfl | hx
      · exact le_of_not_lt hnlt
      · exact hb x hx

theorem pairwise_sortDesc (key : α → ℚ) (l : List α) :
    (sortDesc key l).Pairwise (fun x y => key y ≤ key x) := by
  induction l with
  | nil => simp [sortDesc]
  | cons a l ih => exact pairwise_insertDesc a ih

theorem applyLimit_nil (limit : Option Nat) : applyLimit limit ([] : List α) = [] := by
  cases limit with
  | none => rfl
  | some n => simp [applyLimit]

theorem applyLimit_subset {limit : Option Nat} {l : List α} :
    ∀ x ∈ applyLimit limit l, x ∈ l := by
  intro x hx
  cases limit with
  | none => exact hx
  | some n =>
    simp only [applyLimit] at hx
    split at hx
    · exact hx
    · exact List.take_subset n l hx

theorem applyLimit_pairwise {R : α → α → Prop} {limit : Option Nat} {l : List α}
    (h : l.Pairwise R) : (applyLimit limit l).Pairwise R := by
  cases limit with
  | none => exact h
  | some n =>
    simp only [applyLimit]
    split
    · exact h
    · exact h.sublist (List.take_sublist n l)

theorem applyLimit_of_length_le {limit : Option Nat} {l : List α}
    (h : limit = none ∨ ∃ n, limit = some n ∧ l.length ≤ n) :
    applyLimit limit l = l := by
  rcases h with rfl | ⟨n, rfl, hn⟩
  · rfl
  · simp only [applyLimit]
    split
    · rfl
    · exact List.take_of_length_le hn

theorem mem_studentsJoinClasses {s : Store} {p : Student × Class} :
    p ∈ studentsJoinClasses s ↔
      p.1 ∈ s.students ∧ p.2 ∈ s.classes ∧ p.2.id = p.1.class_id := by
  obtain ⟨st, c⟩ := p
  simp only [studentsJoinClasses, List.mem_flatMap, List.mem_map, List.mem_filter,
    decide_eq_true_eq, Prod.mk.injEq]
  constructor
  · rintro ⟨st', hst', c', ⟨hc', hid⟩, rfl, rfl⟩
    exact ⟨hst', hc', hid⟩
  · rintro ⟨hst, hc, hid⟩
    exact ⟨st, hst, c, ⟨hc, hid⟩, rfl, rfl⟩

/-- Spec-side description of `Σ(amount where type = deposit)` over one
student's transactions. -/
def depositsSum (s : Store) (sid : Nat) : ℚ :=
  ((s.transactions.filter (fun t =>
    decide (t.student_id = sid ∧ t.type = TransactionType.deposit))).map (·.amount)).sum

/-- Spec-side description of `Σ(amount where type = withdrawal)` over one
student's transactions. -/
def withdrawalsSum (s : Store) (sid : Nat) : ℚ :=
  ((s.transactions.filter (fun t =>
    decide (t.student_id = sid ∧ t.type = TransactionType.withdrawal))).map (·.amount)).sum

theorem sqlSumAgg_match (l : List ℚ) :
    (match sqlSumAgg l with
      | some v => v
      | none => 0) = l.sum := by
  unfold sqlSumAgg
  by_cases h : l.isEmpty
  · rw [List.isEmpty_iff] at h
    simp [h]
  · simp [h]

/-!  ## Sample stores used by the witness theorems  -/

/-- The scenario of spec section 8: student A (id 1) with deposits
100, 150, 50 and one withdrawal 50; student B (id 2) with a single 200
deposit; a graduated student G (id 3) with a 999 deposit; class 2 empty of
active students. -/
def sampleStore : Store :=
  { teachers := [⟨5, "T", "t@example.com", .homeroom_teacher, 0, 0⟩]
    classes := [⟨1, "C1", some 5, 0, 0⟩, ⟨2, "C2", none, 0, 0⟩]
    students :=
      [⟨1, "A", .male, "n1", "m1", 1, none, none, none, none, .active, 0, 0⟩,
       ⟨2, "B", .female, "n2", "m2", 1, none, none, none, none, .active, 0, 0⟩,
       ⟨3, "G", .male, "n3", "m3", 2, none, none, none, none, .graduated, 0, 0⟩]
    transactions :=
      [⟨1, 10, .deposit, 100, none, 1, 0, 0⟩,
       ⟨2, 11, .deposit, 150, none, 1, 0, 0⟩,
       ⟨3, 12, .deposit, 50, none, 1, 0, 0⟩,
       ⟨4, 13, .withdrawal, 50, none, 1, 0, 0⟩,
       ⟨5, 14, .deposit, 200, none, 2, 0, 0⟩,
       ⟨6, 15, .deposit, 999, none, 3, 0, 0⟩] }

/-- A store with one class, one active student with no transactions, and one
stored teacher who is not anyone's homeroom teacher. -/
def smallStore : Store :=
  { teachers := [⟨5, "T", "t@example.com", .homeroom_teacher, 0, 0⟩]
    classes := [⟨1, "C1", some 5, 0, 0⟩]
    students := [⟨1, "A", .male, "n1", "m1", 1, none, none, none, none, .active, 0, 0⟩]
    transactions := [] }

/-!  ## Claim theorems  -/

/-- C1: for every existing student, `getStudentBalance` returns exactly the
sum of the amounts of the student's deposit transactions minus the sum of the
amounts of its withdrawal transactions, computed exactly over rationals (the
store sums `numeric` columns exactly); and when the student has no
transactions at all both sides contribute zero and the result is 0 (a missing
side is an absent aggregate row and contributes 0, not null). -/
theorem getStudentBalance_exact (s : Store) (sid : Nat)
    (hex : ∃ st ∈ s.students, st.id = sid) :
    getStudentBalance s sid = .ok (depositsSum s sid - withdrawalsSum s sid) ∧
      ((∀ t ∈ s.transactions, t.student_id ≠ sid) →
        getStudentBalance s sid = .ok 0) := by
  have hne : (s.students.filter (fun st => decide (st.id = sid))).isEmpty ≠ true := by
    intro h
    rw [List.isEmpty_iff] at h
    rcases hex with ⟨st, hst, hid⟩
    have := List.filter_eq_nil_iff.mp h st hst
    simp [hid] at this
  have hmain : getStudentBalance s sid
      = .ok (depositsSum s sid - withdrawalsSum s sid) := by
    unfold getStudentBalance
    rw [if_neg hne]
    simp only [sqlSumAgg_match, depositsSum, withdrawalsSum]
  refine ⟨hmain, fun hno => ?_⟩
  have hd : depositsSum s sid = 0 := by
    unfold depositsSum
    rw [List.filter_eq_nil_iff.mpr ?_]
    · rfl
    · intro t ht
      simp only [decide_eq_true_eq, not_and]
      intro hsid
      exact absurd hsid (hno t ht)
  have hw : withdrawalsSum s sid = 0 := by
    unfold withdrawalsSum
    rw [List.filter_eq_nil_iff.mpr ?_]
    · rfl
    · intro t ht
      simp only [decide_eq_true_eq, not_and]
      intro hsid
      exact absurd hsid (hno t ht)
  rw [hmain, hd, hw]
  norm_num

/-- Witness for C1 at the spec's example scenario: student 1 exists and its
balance is the exact deposit/withdrawal difference (100+150+50−50 = 250). -/
theorem getStudentBalance_exact_witness :
    (∃ st ∈ sampleStore.students, st.id = 1) ∧
      getStudentBalance sampleStore 1
        = .ok (depositsSum sampleStore 1 - withdrawalsSum sampleStore 1) := by
  have hex : ∃ st ∈ sampleStore.students, st.id = 1 := by decide
  exact ⟨hex, (getStudentBalance_exact sampleStore 1 hex).1⟩

/-- C2: a balance lookup on an id with no stored student throws the NotFound
error, while the class- and teacher-scoped leaderboards degrade to the empty
list for a class id with no stored class, a teacher id with no stored teacher
(given the schema's foreign keys), or a teacher who is no class's homeroom
teacher. -/
theorem notFound_throw_vs_empty_list (s : Store) (sid cid tid : Nat)
    (hWF : s.WF)
    (hs : ∀ st ∈ s.students, st.id ≠ sid)
    (hc : ∀ c ∈ s.classes, c.id ≠ cid)
    (hth : ∀ th ∈ s.teachers, th.id ≠ tid) :
    getStudentBalance s sid
      = .error ("Student with id " ++ toString sid ++ " not found") ∧
    (∀ limit, getStudentLeaderboardByClass s cid limit = []) ∧
    (∀ limit, getStudentLeaderboardByTeacher s tid limit = []) ∧
    (∀ tid2, (∀ c ∈ s.classes, c.homeroom_teacher_id ≠ some tid2) →
      ∀ limit, getStudentLeaderboardByTeacher s tid2 limit = []) := by
  have hbal : getStudentBalance s sid
      = .error ("Student with id " ++ toString sid ++ " not found") := by
    have hnil : s.students.filter (fun st => decide (st.id = sid)) = [] :=
      List.filter_eq_nil_iff.mpr (by
        intro st hst
        simp only [decide_eq_true_eq]
        exact hs st hst)
    unfold getStudentBalance
    rw [hnil]
    rfl
  have hclass : ∀ limit, getStudentLeaderboardByClass s cid limit = [] := by
    intro limit
    have hnil : (studentsJoinClasses s).filter
        (fun p => decide (p.1.class_id = cid ∧ p.1.status = StudentStatus.active)) = [] :=
      List.filter_eq_nil_iff.mpr (by
        intro p hp
        simp only [decide_eq_true_eq]
        rintro ⟨hcid, -⟩
        rcases mem_studentsJoinClasses.mp hp with ⟨-, hpc, hpid⟩
        exact hc p.2 hpc (hpid.trans hcid))
    simp only [getStudentLeaderboardByClass]
    rw [hnil]
    simp [sortDesc, applyLimit_nil]
  have hteacher2 : ∀ tid2, (∀ c ∈ s.classes, c.homeroom_teacher_id ≠ some tid2) →
      ∀ limit, getStudentLeaderboardByTeacher s tid2 limit = [] := by
    intro tid2 hhr limit
    have hnil : (studentsJoinClasses s).filter
        (fun p => decide (p.2.homeroom_teacher_id = some tid2 ∧
          p.1.status = StudentStatus.active)) = [] :=
      List.filter_eq_nil_iff.mpr (by
        intro p hp
        simp only [decide_eq_true_eq]
        rintro ⟨hhome, -⟩
        exact hhr p.2 (mem_studentsJoinClasses.mp hp).2.1 hhome)
    simp only [getStudentLeaderboardByTeacher]
    rw [hnil]
    simp [sortDesc, applyLimit_nil]
  refine ⟨hbal, hclass, ?_, hteacher2⟩
  refine hteacher2 tid ?_
  intro c hcmem hcsome
  rcases hWF.fk_class_teacher c hcmem with hnone | ⟨th, hthmem, hthid⟩
  · rw [hnone] at hcsome
    exact Option.noConfusion hcsome
  · rw [hcsome] at hthid
    exact hth th hthmem (Option.some.inj hthid)

/-- Witness for C2: in the sample store, student id 9, class id 99 and
teacher id 7 are all absent; the balance lookup throws while both scoped
leaderboards return the empty list. -/
theorem notFound_throw_vs_empty_list_witness :
    (∀ st ∈ sampleStore.students, st.id ≠ 9) ∧
      getStudentBalance sampleStore 9
        = .error ("Student with id " ++ toString 9 ++ " not found") ∧
      getStudentLeaderboardByClass sampleStore 99 none = [] ∧
      getStudentLeaderboardByTeacher sampleStore 7 none = [] := by
  have hWF : sampleStore.WF := ⟨by decide, by decide, by decide, by decide⟩
  have hs : ∀ st ∈ sampleStore.students, st.id ≠ 9 := by decide
  have hc : ∀ c ∈ sampleStore.classes, c.id ≠ 99 := by decide
  have hth : ∀ th ∈ sampleStore.teachers, th.id ≠ 7 := by decide
  obtain ⟨h1, h2, h3, -⟩ := notFound_throw_vs_empty_list sampleStore 9 99 7 hWF hs hc hth
  exact ⟨hs, h1, h2 none, h3 none⟩

/-- C10: a provided limit of 0 is falsy in `limit ? baseQuery.limit(limit) :
baseQuery`, so every leaderboard operation called with limit 0 returns the
full ranked list, identical to the call without a limit. -/
theorem limit_zero_is_no_limit (s : Store) (cid tid : Nat) :
    getStudentLeaderboard s (some 0) = getStudentLeaderboard s none ∧
    getClassLeaderboard s (some 0) = getClassLeaderboard s none ∧
    getStudentLeaderboardByClass s cid (some 0) = getStudentLeaderboardByClass s cid none ∧
    getStudentLeaderboardByTeacher s tid (some 0) = getStudentLeaderboardByTeacher s tid none := by
  refine ⟨?_, ?_, ?_, ?_⟩ <;>
    simp [getStudentLeaderboard, getClassLeaderboard, getStudentLeaderboardByClass,
      getStudentLeaderboardByTeacher, applyLimit]

/-- The claimed descending order on student-leaderboard rows. -/
def sortedByDeposits (l : List StudentLeaderboard) : Prop :=
  l.Pairwise (fun a b => b.total_deposits ≤ a.total_deposits)

/-- The claimed descending order on class-leaderboard rows. -/
def sortedByDepositsC (l : List ClassLeaderboard) : Prop :=
  l.Pairwise (fun a b => b.total_deposits ≤ a.total_deposits)

theorem applyLimit_pos {n : Nat} (hn : 1 ≤ n) (l : List α) :
    applyLimit (some n) l = l.take n := by
  simp only [applyLimit]
  rw [if_neg (by omega)]

/-- C6 (amended): every leaderboard result is sorted in descending order of
`total_deposits` at any limit, and for every provided positive limit `n` the
result is the first-`n` prefix of the unlimited result; a provided limit of 0
is falsy and yields the full list instead of an empty prefix. -/
theorem leaderboards_sorted_and_limit_take (s : Store) (cid tid : Nat)
    (limit : Option Nat) (n : Nat) (hn : 1 ≤ n) :
    sortedByDeposits (getStudentLeaderboard s limit) ∧
    sortedByDepositsC (getClassLeaderboard s limit) ∧
    sortedByDeposits (getStudentLeaderboardByClass s cid limit) ∧
    sortedByDeposits (getStudentLeaderboardByTeacher s tid limit) ∧
    getStudentLeaderboard s (some n) = (getStudentLeaderboard s none).take n ∧
    getClassLeaderboard s (some n) = (getClassLeaderboard s none).take n ∧
    getStudentLeaderboardByClass s cid (some n)
      = (getStudentLeaderboardByClass s cid none).take n ∧
    getStudentLeaderboardByTeacher s tid (some n)
      = (getStudentLeaderboardByTeacher s tid none).take n := by
  refine ⟨?_, ?_, ?_, ?_, ?_, ?_, ?_, ?_⟩
  · exact applyLimit_pairwise (pairwise_sortDesc _ _)
  · exact applyLimit_pairwise (pairwise_sortDesc _ _)
  · exact applyLimit_pairwise (pairwise_sortDesc _ _)
  · exact applyLimit_pairwise (pairwise_sortDesc _ _)
  · simp only [getStudentLeaderboard]
    rw [applyLimit_pos hn]
    rfl
  · simp only [getClassLeaderboard]
    rw [applyLimit_pos hn]
    rfl
  · simp only [getStudentLeaderboardByClass]
    rw [applyLimit_pos hn]
    rfl
  · simp only [getStudentLeaderboardByTeacher]
    rw [applyLimit_pos hn]
    rfl

/-- Witness for C6: in the sample store, the result limited to 1 row is the
first-1 prefix of the unlimited ranked list. -/
theorem leaderboards_sorted_and_limit_take_witness :
    1 ≤ 1 ∧ getStudentLeaderboard sampleStore (some 1)
      = (getStudentLeaderboard sampleStore none).take 1 :=
  ⟨by decide,
    (leaderboards_sorted_and_limit_take sampleStore 1 5 none 1 (by decide)).2.2.2.2.1⟩

/-- C6 counterexample: with one active student in the store, the leaderboard
called with the provided limit 0 returns the one-row list, which is not the
first-0-rows prefix (the empty list) of the unlimited result. -/
theorem limit_prefix_fails_at_zero :
    getStudentLeaderboard smallStore (some 0)
      ≠ (getStudentLeaderboard smallStore none).take 0 := by
  decide

/-- C9: `createTransaction` with an unknown student id, and
`updateTransaction`/`deleteTransaction` with an unknown transaction id, throw
the NotFound error naming the entity kind and the missing id, and since the
existence check precedes any write the returned store is the unchanged input
store. -/
theorem txCrud_notFound_no_write (s : Store) (ci : CreateTransactionInput)
    (ui : UpdateTransactionInput) (did newId : Nat) (now : Int)
    (hc : ∀ st ∈ s.students, st.id ≠ ci.student_id)
    (hu : ∀ t ∈ s.transactions, t.id ≠ ui.id)
    (hd : ∀ t ∈ s.transactions, t.id ≠ did) :
    createTransaction s ci newId now
      = (.error ("Student with id " ++ toString ci.student_id ++ " not found"), s) ∧
    updateTransaction s ui
      = (.error ("Transaction with id " ++ toString ui.id ++ " not found"), s) ∧
    deleteTransaction s did
      = (.error ("Transaction with id " ++ toString did ++ " not found"), s) := by
  refine ⟨?_, ?_, ?_⟩
  · have hnil : s.students.filter (fun st => decide (st.id = ci.student_id)) = [] :=
      List.filter_eq_nil_iff.mpr (by
        intro st hst
        simpa using hc st hst)
    unfold createTransaction
    rw [hnil]
    rfl
  · have hnone : s.transactions.find? (fun t => decide (t.id = ui.id)) = none :=
      List.find?_eq_none.mpr (by
        intro t ht
        simpa using hu t ht)
    unfold updateTransaction
    rw [hnone]
  · have hnone : s.transactions.find? (fun t => decide (t.id = did)) = none :=
      List.find?_eq_none.mpr (by
        intro t ht
        simpa using hd t ht)
    unfold deleteTransaction
    rw [hnone]

/-- Witness for C9: in the sample store, student id 9 and transaction ids 99
and 77 are absent; all three operations throw and leave the store as it
was. -/
theorem txCrud_notFound_no_write_witness :
    (∀ st ∈ sampleStore.students, st.id ≠ 9) ∧
      createTransaction sampleStore ⟨20, .deposit, 10, none, 9⟩ 100 50
        = (.error ("Student with id " ++ toString 9 ++ " not found"), sampleStore) ∧
      updateTransaction sampleStore ⟨99, none, none, none, none, none⟩
        = (.error ("Transaction with id " ++ toString 99 ++ " not found"), sampleStore) ∧
      deleteTransaction sampleStore 77
        = (.error ("Transaction with id " ++ toString 77 ++ " not found"), sampleStore) := by
  have hc : ∀ st ∈ sampleStore.students, st.id ≠ 9 := by decide
  have hu : ∀ t ∈ sampleStore.transactions, t.id ≠ 99 := by decide
  have hd : ∀ t ∈ sampleStore.transactions, t.id ≠ 77 := by decide
  obtain ⟨h1, h2, h3⟩ := txCrud_notFound_no_write sampleStore
    ⟨20, .deposit, 10, none, 9⟩ ⟨99, none, none, none, none, none⟩ 77 100 50 hc hu hd
  exact ⟨hc, h1, h2, h3⟩

/-- C8 (divergence evidence): `updateStudent` refreshes `updated_at` to the
clock value on every update, but `updateTransaction` builds its `updateData`
without `updated_at` and `db/schema.ts` gives the column no on-update
default, so a transaction update keeps the old timestamp.  Here both rows
start with `updated_at = 0`, the clock reads 100, and only the student's
timestamp moves. -/
theorem updateTransaction_stale_updated_at :
    ((updateTransaction sampleStore
        ⟨1, none, none, none, some (some "x"), none⟩).1.toOption.map (·.updated_at)
      = some 0) ∧
    ((updateStudent sampleStore
        ⟨1, some "A2", none, none, none, none, none, none, none, none, none⟩
        100).1.toOption.map (·.updated_at)
      = some 100) := by
  decide

/-- C7 (amended): `getTransactionReport` returns exactly the joined
transactions satisfying the conjunction of the provided filter fields, for
every filter whose provided `student_id` and `class_id` are nonzero; a
provided zero id is falsy in JavaScript, so its condition is skipped rather
than matched against.  With no filter every joined transaction is
returned. -/
theorem getTransactionReport_filters (s : Store) (f : TransactionFilter)
    (hsid : f.student_id ≠ some 0)
    (hcid : f.class_id ≠ some 0) :
    getTransactionReport s (some f) = reportSpec s (some f) ∧
      getTransactionReport s none = (reportJoin s).map reportRowOf := by
  refine ⟨?_, rfl⟩
  simp only [getTransactionReport, reportSpec]
  congr 1
  apply List.filter_congr
  intro r hr
  unfold reportCond reportCondSpec
  have h1 : (match f.student_id with
      | some sid => decide (sid = 0) || decide (r.1.student_id = sid)
      | none => true)
      = (match f.student_id with
      | some sid => decide (r.1.student_id = sid)
      | none => true) := by
    cases hfs : f.student_id with
    | none => rfl
    | some sid =>
      have : sid ≠ 0 := by
        intro h
        exact hsid (by rw [hfs, h])
      simp [this]
  have h2 : (match f.class_id with
      | some cid => decide (cid = 0) || decide (r.2.1.class_id = cid)
      | none => true)
      = (match f.class_id with
      | some cid => decide (r.2.1.class_id = cid)
      | none => true) := by
    cases hfc : f.class_id with
    | none => rfl
    | some cid =>
      have : cid ≠ 0 := by
        intro h
        exact hcid (by rw [hfc, h])
      simp [this]
  rw [h1, h2]

/-- Witness for C7: filtering the sample store by student id 1 (nonzero)
matches the spec-level filter semantics. -/
theorem getTransactionReport_filters_witness :
    ((⟨some 1, none, none, none, none⟩ : TransactionFilter).student_id ≠ some 0) ∧
      getTransactionReport sampleStore (some ⟨some 1, none, none, none, none⟩)
        = reportSpec sampleStore (some ⟨some 1, none, none, none, none⟩) := by
  have hsid : (⟨some 1, none, none, none, none⟩ : TransactionFilter).student_id ≠ some 0 := by
    decide
  have hcid : (⟨some 1, none, none, none, none⟩ : TransactionFilter).class_id ≠ some 0 := by
    decide
  exact ⟨hsid,
    (getTransactionReport_filters sampleStore ⟨some 1, none, none, none, none⟩ hsid hcid).1⟩

/-- C7 counterexample: by the claim, filtering by `student_id = 0` must
return only transactions of student 0, i.e. none in the sample store; but the
code treats the falsy 0 as "no condition" and returns every joined
transaction. -/
theorem report_zero_student_id_counterexample :
    getTransactionReport sampleStore (some ⟨some 0, none, none, none, none⟩)
      ≠ reportSpec sampleStore (some ⟨some 0, none, none, none, none⟩) := by
  decide

theorem filter_id_length_one {l : List Class} {x : Nat}
    (hnd : (l.map (·.id)).Nodup) (hex : ∃ c ∈ l, c.id = x) :
    (l.filter (fun c => decide (c.id = x))).length = 1 := by
  induction l with
  | nil =>
    rcases hex with ⟨c, hc, -⟩
    cases hc
  | cons c l ih =>
    rw [List.map_cons, List.nodup_cons] at hnd
    by_cases hcx : c.id = x
    · have hnil : l.filter (fun c2 => decide (c2.id = x)) = [] :=
        List.filter_eq_nil_iff.mpr (by
          intro c2 hc2
          simp only [decide_eq_true_eq]
          intro h2
          exact hnd.1 (List.mem_map.mpr ⟨c2, hc2, by rw [h2, ← hcx]⟩))
      rw [List.filter_cons_of_pos (by simpa using hcx), hnil]
      rfl
    · rw [List.filter_cons_of_neg (by simpa using hcx)]
      refine ih hnd.2 ?_
      rcases hex with ⟨c', hc', hcid⟩
      rcases List.mem_cons.mp hc' with rfl | hc'
      · exact absurd hcid hcx
      · exact ⟨c', hc', hcid⟩

theorem joined_active_length (classes : List Class) (students : List Student)
    (hfk : ∀ st ∈ students, ∃ c ∈ classes, c.id = st.class_id)
    (hnd : (classes.map (·.id)).Nodup) :
    ((students.flatMap (fun st =>
        (classes.filter (fun c => decide (c.id = st.class_id))).map (fun c => (st, c)))).filter
      (fun p => decide (p.1.status = StudentStatus.active))).length
    = (students.filter (fun st => decide (st.status = StudentStatus.active))).length := by
  induction students with
  | nil => rfl
  | cons st sts ih =>
    rw [List.flatMap_cons, List.filter_append, List.length_append,
      ih (fun x hx => hfk x (List.mem_cons_of_mem st hx))]
    by_cases hact : st.status = StudentStatus.active
    · have hkeep : ((classes.filter (fun c => decide (c.id = st.class_id))).map
          (fun c => (st, c))).filter (fun p => decide (p.1.status = StudentStatus.active))
          = (classes.filter (fun c => decide (c.id = st.class_id))).map (fun c => (st, c)) :=
        List.filter_eq_self.mpr (by
          intro p hp
          rcases List.mem_map.mp hp with ⟨c, -, rfl⟩
          simpa using hact)
      rw [hkeep, List.length_map,
        filter_id_length_one hnd (hfk st (List.mem_cons_self st sts)),
        List.filter_cons_of_pos (by simpa using hact), List.length_cons]
      omega
    · have hdrop : ((classes.filter (fun c => decide (c.id = st.class_id))).map
          (fun c => (st, c))).filter (fun p => decide (p.1.status = StudentStatus.active))
          = [] :=
        List.filter_eq_nil_iff.mpr (by
          intro p hp
          rcases List.mem_map.mp hp with ⟨c, -, rfl⟩
          simpa using hact)
      rw [hdrop, List.filter_cons_of_neg (by simpa using hact)]
      simp

theorem studentRow_no_tx (s : Store) (st : Student) (cn : String)
    (htx : ∀ t ∈ s.transactions, t.student_id ≠ st.id) :
    studentRow s st cn = ⟨st.id, st.name, cn, 0, 0, 0⟩ := by
  have hnil : s.transactions.filter (fun t => decide (t.student_id = st.id)) = [] :=
    List.filter_eq_nil_iff.mpr (by
      intro t ht
      simpa using htx t ht)
  simp [studentRow, leftJoinTx, hnil, sqlSum, sqlSumAgg, sqlCount,
    caseDepositAmount, caseSignedAmount]

/-- C3: every active student with zero transactions appears on the student
leaderboard (when no limit is given, or the given limit is at least the
number of active students) with `total_deposits = 0`,
`transaction_count = 0` and `current_balance = 0`. -/
theorem zero_tx_active_student_listed (s : Store) (st : Student) (c : Class)
    (limit : Option Nat) (hWF : s.WF)
    (hst : st ∈ s.students) (hact : st.status = StudentStatus.active)
    (htx : ∀ t ∈ s.transactions, t.student_id ≠ st.id)
    (hc : c ∈ s.classes) (hcid : c.id = st.class_id)
    (hlim : limit = none ∨ ∃ n, limit = some n ∧
      (s.students.filter (fun x => decide (x.status = StudentStatus.active))).length ≤ n) :
    (⟨st.id, st.name, c.name, 0, 0, 0⟩ : StudentLeaderboard)
      ∈ getStudentLeaderboard s limit := by
  have hmem : (st, c) ∈ (studentsJoinClasses s).filter
      (fun p => decide (p.1.status = StudentStatus.active)) := by
    rw [List.mem_filter]
    exact ⟨mem_studentsJoinClasses.mpr ⟨hst, hc, hcid⟩, by simpa using hact⟩
  have hrow : (⟨st.id, st.name, c.name, 0, 0, 0⟩ : StudentLeaderboard)
      ∈ ((studentsJoinClasses s).filter
          (fun p => decide (p.1.status = StudentStatus.active))).map
        (fun p => studentRow s p.1 p.2.name) :=
    List.mem_map.mpr ⟨(st, c), hmem, studentRow_no_tx s st c.name htx⟩
  have hlen : (sortDesc (·.total_deposits)
      (((studentsJoinClasses s).filter
        (fun p => decide (p.1.status = StudentStatus.active))).map
        (fun p => studentRow s p.1 p.2.name))).length
      = (s.students.filter (fun x => decide (x.status = StudentStatus.active))).length := by
    rw [length_sortDesc, List.length_map]
    exact joined_active_length s.classes s.students hWF.fk_student_class hWF.classes_nodup
  simp only [getStudentLeaderboard]
  rw [applyLimit_of_length_le ?_]
  · exact mem_sortDesc.mpr hrow
  · rcases hlim with rfl | ⟨n, rfl, hn⟩
    · exact Or.inl rfl
    · exact Or.inr ⟨n, rfl, by rw [hlen]; exact hn⟩

/-- Witness for C3: in the small store, the single active student has no
transactions and appears with all aggregates 0. -/
theorem zero_tx_active_student_listed_witness :
    (∀ t ∈ smallStore.transactions, t.student_id ≠ 1) ∧
      (⟨1, "A", "C1", 0, 0, 0⟩ : StudentLeaderboard)
        ∈ getStudentLeaderboard smallStore none := by
  have hWF : smallStore.WF := ⟨by decide, by decide, by decide, by decide⟩
  have hst : (⟨1, "A", .male, "n1", "m1", 1, none, none, none, none,
      .active, 0, 0⟩ : Student) ∈ smallStore.students := by decide
  have hc : (⟨1, "C1", some 5, 0, 0⟩ : Class) ∈ smallStore.classes := by decide
  have htx : ∀ t ∈ smallStore.transactions,
      t.student_id ≠ (1 : Nat) := by decide
  exact ⟨htx, zero_tx_active_student_listed smallStore _ _ none hWF hst (by decide)
    htx hc (by decide) (Or.inl rfl)⟩

/-- Whether the owning student of a transaction is stored and active. -/
def txOwnerActive (s : Store) (t : Transaction) : Bool :=
  s.students.any (fun st => decide (st.id = t.student_id ∧ st.status = StudentStatus.active))

/-- The store with every transaction of a non-active (or unknown) owner
removed from the ledger. -/
def restrictToActive (s : Store) : Store :=
  { s with transactions := s.transactions.filter (txOwnerActive s) }

theorem flatMap_congr {l : List α} {f g : α → List β}
    (h : ∀ a ∈ l, f a = g a) : l.flatMap f = l.flatMap g := by
  induction l with
  | nil => rfl
  | cons a l ih =>
    rw [List.flatMap_cons, List.flatMap_cons, h a (List.mem_cons_self a l),
      ih (fun x hx => h x (List.mem_cons_of_mem a hx))]

theorem filter_owner_active (s : Store) (st : Student)
    (hst : st ∈ s.students) (hact : st.status = StudentStatus.active) :
    (s.transactions.filter (txOwnerActive s)).filter
        (fun t => decide (t.student_id = st.id))
      = s.transactions.filter (fun t => decide (t.student_id = st.id)) := by
  rw [List.filter_filter]
  apply List.filter_congr
  intro t ht
  by_cases hid : t.student_id = st.id
  · have howner : txOwnerActive s t = true := by
      unfold txOwnerActive
      rw [List.any_eq_true]
      exact ⟨st, hst, by simp [hid, hact]⟩
    simp [hid, howner]
  · simp [hid]

theorem studentRow_restrict (s : Store) (st : Student) (cn : String)
    (hst : st ∈ s.students) (hact : st.status = StudentStatus.active) :
    studentRow (restrictToActive s) st cn = studentRow s st cn := by
  simp only [studentRow, leftJoinTx, restrictToActive]
  rw [filter_owner_active s st hst hact]

theorem classPiece_restrict (s : Store) (st : Student) (hst : st ∈ s.students) :
    classPiece (s.transactions.filter (txOwnerActive s)) st
      = classPiece s.transactions st := by
  have hfilter : (s.transactions.filter (txOwnerActive s)).filter
      (fun t => decide (t.student_id = st.id ∧ st.status = StudentStatus.active))
      = s.transactions.filter
        (fun t => decide (t.student_id = st.id ∧ st.status = StudentStatus.active)) := by
    rw [List.filter_filter]
    apply List.filter_congr
    intro t ht
    by_cases hact : st.status = StudentStatus.active
    · by_cases hid : t.student_id = st.id
      · have howner : txOwnerActive s t = true := by
          unfold txOwnerActive
          rw [List.any_eq_true]
          exact ⟨st, hst, by simp [hid, hact]⟩
        simp [hid, hact, howner]
      · simp [hid]
    · simp [hact]
  unfold classPiece
  rw [hfilter]

theorem classRow_restrict (s : Store) (c : Class) :
    classRow (restrictToActive s) c = classRow s c := by
  have hrows : classJoinRows (restrictToActive s) c = classJoinRows s c := by
    simp only [classJoinRows, restrictToActive]
    have hsts : ∀ st ∈ s.students.filter (fun st => decide (st.class_id = c.id)),
        classPiece (s.transactions.filter (txOwnerActive s)) st
          = classPiece s.transactions st := by
      intro st hstf
      exact classPiece_restrict s st (List.mem_filter.mp hstf).1
    split
    · rfl
    · exact flatMap_congr hsts
  simp only [classRow]
  rw [hrows]

/-- C4: the student leaderboards list only active students, and transactions
owned by non-active students contribute to no aggregate of any leaderboard:
deleting every such transaction from the ledger leaves all four leaderboard
operations unchanged. -/
theorem leaderboards_exclude_non_active (s : Store) :
    (∀ limit, ∀ row ∈ getStudentLeaderboard s limit,
      ∃ st ∈ s.students, st.id = row.student_id ∧ st.status = StudentStatus.active) ∧
    (∀ cid limit, ∀ row ∈ getStudentLeaderboardByClass s cid limit,
      ∃ st ∈ s.students, st.id = row.student_id ∧ st.status = StudentStatus.active) ∧
    (∀ tid limit, ∀ row ∈ getStudentLeaderboardByTeacher s tid limit,
      ∃ st ∈ s.students, st.id = row.student_id ∧ st.status = StudentStatus.active) ∧
    (∀ limit, getStudentLeaderboard (restrictToActive s) limit
      = getStudentLeaderboard s limit) ∧
    (∀ cid limit, getStudentLeaderboardByClass (restrictToActive s) cid limit
      = getStudentLeaderboardByClass s cid limit) ∧
    (∀ tid limit, getStudentLeaderboardByTeacher (restrictToActive s) tid limit
      = getStudentLeaderboardByTeacher s tid limit) ∧
    (∀ limit, getClassLeaderboard (restrictToActive s) limit
      = getClassLeaderboard s limit) := by
  have hgen : ∀ (pred : Student × Class → Bool),
      (∀ p, pred p = true → p.1.status = StudentStatus.active) →
      ∀ (limit : Option Nat) (row : StudentLeaderboard),
      row ∈ applyLimit limit (sortDesc (·.total_deposits)
        (((studentsJoinClasses s).filter pred).map (fun p => studentRow s p.1 p.2.name))) →
      ∃ st ∈ s.students, st.id = row.student_id ∧ st.status = StudentStatus.active := by
    intro pred hpred limit row hrow
    have h1 := applyLimit_subset row hrow
    rw [mem_sortDesc] at h1
    rcases List.mem_map.mp h1 with ⟨p, hp, rfl⟩
    rw [List.mem_filter] at hp
    exact ⟨p.1, (mem_studentsJoinClasses.mp hp.1).1, rfl, hpred p hp.2⟩
  have hrestrict : ∀ (pred : Student × Class → Bool),
      (∀ p, pred p = true → p.1.status = StudentStatus.active) →
      ((studentsJoinClasses s).filter pred).map
          (fun p => studentRow (restrictToActive s) p.1 p.2.name)
        = ((studentsJoinClasses s).filter pred).map
          (fun p => studentRow s p.1 p.2.name) := by
    intro pred hpred
    apply List.map_congr_left
    intro p hp
    rw [List.mem_filter] at hp
    exact studentRow_restrict s p.1 p.2.name
      (mem_studentsJoinClasses.mp hp.1).1 (hpred p hp.2)
  refine ⟨?_, ?_, ?_, ?_, ?_, ?_, ?_⟩
  · intro limit row hrow
    simp only [getStudentLeaderboard] at hrow
    exact hgen _ (by
      intro p hp
      simpa using hp) limit row hrow
  · intro cid limit row hrow
    simp only [getStudentLeaderboardByClass] at hrow
    exact hgen _ (by
      intro p hp
      exact (of_decide_eq_true hp).2) limit row hrow
  · intro tid limit row hrow
    simp only [getStudentLeaderboardByTeacher] at hrow
    exact hgen _ (by
      intro p hp
      exact (of_decide_eq_true hp).2) limit row hrow
  · intro limit
    simp only [getStudentLeaderboard]
    have h : studentsJoinClasses (restrictToActive s) = studentsJoinClasses s := rfl
    rw [h, hrestrict _ (by
      intro p hp
      simpa using hp)]
  · intro cid limit
    simp only [getStudentLeaderboardByClass]
    have h : studentsJoinClasses (restrictToActive s) = studentsJoinClasses s := rfl
    rw [h, hrestrict _ (by
      intro p hp
      exact (of_decide_eq_true hp).2)]
  · intro tid limit
    simp only [getStudentLeaderboardByTeacher]
    have h : studentsJoinClasses (restrictToActive s) = studentsJoinClasses s := rfl
    rw [h, hrestrict _ (by
      intro p hp
      exact (of_decide_eq_true hp).2)]
  · intro limit
    simp only [getClassLeaderboard]
    have h : (restrictToActive s).classes = s.classes := rfl
    rw [h, List.map_congr_left (fun c _ => classRow_restrict s c)]

/-- Witness for C4: in the sample store the graduated student's 999 deposit
exists in the ledger, yet every student-leaderboard row belongs to an active
student and dropping non-active-owned transactions changes nothing. -/
theorem leaderboards_exclude_non_active_witness :
    ((⟨1, "A", "C1", 300, 4, 250⟩ : StudentLeaderboard)
        ∈ getStudentLeaderboard sampleStore none →
      ∃ st ∈ sampleStore.students, st.id = 1 ∧ st.status = StudentStatus.active) ∧
      getClassLeaderboard (restrictToActive sampleStore) none
        = getClassLeaderboard sampleStore none := by
  obtain ⟨h1, -, -, -, -, -, h7⟩ := leaderboards_exclude_non_active sampleStore
  exact ⟨fun hmem => h1 none _ hmem, h7 none⟩

/-!  ## Spec-side description of the class leaderboard row (for C5)  -/

/-- The active students enrolled in a class. -/
def classActiveStudents (s : Store) (c : Class) : List Student :=
  s.students.filter (fun st =>
    decide (st.class_id = c.id ∧ st.status = StudentStatus.active))

/-- The sum of one student's deposit amounts. -/
def studentDeposits (s : Store) (st : Student) : ℚ :=
  ((s.transactions.filter (fun t =>
    decide (t.student_id = st.id ∧ t.type = TransactionType.deposit))).map (·.amount)).sum

/-- The signed contribution of one transaction: amount for a deposit, minus
amount for a withdrawal. -/
def signedAmount (t : Transaction) : ℚ :=
  if t.type = TransactionType.deposit then t.amount else -t.amount

/-- The transaction rows of a class's active students. -/
def classTxRows (s : Store) (c : Class) : List Transaction :=
  (classActiveStudents s c).flatMap (fun st =>
    s.transactions.filter (fun t => decide (t.student_id = st.id)))

/-- Spec-side description of a class-leaderboard row: deposits summed over
the class's active students, the count of active students, and the mean of
signed per-transaction contributions over the active students' transaction
rows (0 when there are none). -/
def classRowSpec (s : Store) (c : Class) : ClassLeaderboard :=
  { class_id := c.id
    class_name := c.name
    total_deposits := ((classActiveStudents s c).map (fun st => studentDeposits s st)).sum
    total_students := (classActiveStudents s c).length
    average_balance := if (classTxRows s c).isEmpty then 0
      else ((classTxRows s c).map signedAmount).sum / ((classTxRows s c).length : ℚ) }

/-!  ### Generic aggregation lemmas  -/

theorem sum_map_flatMap (l : List α) (f : α → List β) (g : β → ℚ) :
    ((l.flatMap f).map g).sum = (l.map (fun a => ((f a).map g).sum)).sum := by
  induction l with
  | nil => rfl
  | cons a l ih =>
    rw [List.flatMap_cons, List.map_append, List.sum_append, ih, List.map_cons,
      List.sum_cons]

theorem filterMap_flatMap (l : List α) (f : α → List β) (g : β → Option γ) :
    (l.flatMap f).filterMap g = l.flatMap (fun a => (f a).filterMap g) := by
  induction l with
  | nil => rfl
  | cons a l ih =>
    rw [List.flatMap_cons, List.filterMap_append, ih, List.flatMap_cons]

theorem map_flatMap_comm (l : List α) (f : α → List β) (g : β → γ) :
    (l.flatMap f).map g = l.flatMap (fun a => (f a).map g) := by
  induction l with
  | nil => rfl
  | cons a l ih =>
    rw [List.flatMap_cons, List.map_append, ih, List.flatMap_cons]

theorem sum_map_ite_filter (l : List α) (q : α → Prop) [DecidablePred q]
    (f : α → ℚ) :
    (l.map (fun a => if q a then f a else 0)).sum
      = ((l.filter (fun a => decide (q a))).map f).sum := by
  induction l with
  | nil => rfl
  | cons a l ih =>
    by_cases h : q a
    · simp [h, ih]
    · simp [h, ih]

theorem flatMap_ite_filter (l : List α) (q : α → Prop) [DecidablePred q]
    (f : α → List β) :
    (l.flatMap (fun a => if q a then f a else []))
      = (l.filter (fun a => decide (q a))).flatMap f := by
  induction l with
  | nil => rfl
  | cons a l ih =>
    by_cases h : q a
    · simp [h, ih, List.flatMap_cons]
    · simp [h, ih, List.flatMap_cons]

theorem classPiece_ne_nil (txs : List Transaction) (st : Student) :
    classPiece txs st ≠ [] := by
  simp only [classPiece]
  split
  · simp
  · rename_i h
    rw [List.isEmpty_iff] at h
    intro hmap
    exact h (List.map_eq_nil_iff.mp hmap)

theorem flatMap_ne_nil_of_pieces (l : List α) (f : α → List β)
    (hl : l ≠ []) (hf : ∀ a, f a ≠ []) : l.flatMap f ≠ [] := by
  cases l with
  | nil => exact absurd rfl hl
  | cons a l =>
    rw [List.flatMap_cons]
    intro h
    exact hf a (List.append_eq_nil.mp h).1

theorem classPiece_fst (txs : List Transaction) (st : Student) :
    ∀ r ∈ classPiece txs st, r.1 = some st := by
  intro r hr
  revert hr
  simp only [classPiece]
  split
  · intro h
    rw [List.mem_singleton] at h
    rw [h]
  · intro h
    rcases List.mem_map.mp h with ⟨t, -, rfl⟩
    rfl

theorem classPiece_deposit_sum (txs : List Transaction) (st : Student) :
    ((classPiece txs st).map (fun r => caseDepositAmount r.2)).sum
      = if st.status = StudentStatus.active
        then ((txs.filter (fun t =>
            decide (t.student_id = st.id ∧ t.type = TransactionType.deposit))).map (·.amount)).sum
        else 0 := by
  by_cases hact : st.status = StudentStatus.active
  · rw [if_pos hact]
    have hts : txs.filter (fun t =>
        decide (t.student_id = st.id ∧ st.status = StudentStatus.active))
        = txs.filter (fun t => decide (t.student_id = st.id)) :=
      List.filter_congr (by
        intro t ht
        simp [hact])
    simp only [classPiece, hts]
    by_cases hemp : (txs.filter (fun t => decide (t.student_id = st.id))).isEmpty
    · rw [if_pos hemp]
      rw [List.isEmpty_iff] at hemp
      have hconj : txs.filter (fun t =>
          decide (t.student_id = st.id ∧ t.type = TransactionType.deposit)) = [] := by
        refine List.filter_eq_nil_iff.mpr ?_
        intro t ht
        have hns := List.filter_eq_nil_iff.mp hemp t ht
        simp only [decide_eq_true_eq] at hns ⊢
        intro h
        exact hns h.1
      rw [hconj]
      simp [caseDepositAmount]
    · rw [if_neg hemp]
      rw [List.map_map]
      have hcomp : ((fun r : Option Student × Option Transaction => caseDepositAmount r.2)
          ∘ (fun t : Transaction => ((some st : Option Student), (some t : Option Transaction))))
          = fun t : Transaction =>
            if t.type = TransactionType.deposit then t.amount else 0 := rfl
      rw [hcomp, sum_map_ite_filter (txs.filter (fun t => decide (t.student_id = st.id)))
        (fun t : Transaction => t.type = TransactionType.deposit)
        (fun t : Transaction => t.amount)]
      have hff : (txs.filter (fun t => decide (t.student_id = st.id))).filter
          (fun t => decide (t.type = TransactionType.deposit))
          = txs.filter (fun t =>
            decide (t.student_id = st.id ∧ t.type = TransactionType.deposit)) := by
        rw [List.filter_filter]
        apply List.filter_congr
        intro t ht
        by_cases h1 : t.student_id = st.id <;>
          by_cases h2 : t.type = TransactionType.deposit <;> simp [h1, h2]
      rw [hff]
  · rw [if_neg hact]
    have hnil : txs.filter (fun t =>
        decide (t.student_id = st.id ∧ st.status = StudentStatus.active)) = [] :=
      List.filter_eq_nil_iff.mpr (by
        intro t ht
        simp [hact])
    simp only [classPiece]
    rw [hnil]
    simp [caseDepositAmount]

theorem classPiece_ids_mem (txs : List Transaction) (st : Student) (x : Nat) :
    x ∈ (classPiece txs st).filterMap (fun r => caseActiveId r.1)
      ↔ st.status = StudentStatus.active ∧ x = st.id := by
  rw [List.mem_filterMap]
  constructor
  · rintro ⟨r, hr, hgr⟩
    rw [classPiece_fst txs st r hr] at hgr
    by_cases hact : st.status = StudentStatus.active
    · simp [caseActiveId, hact] at hgr
      exact ⟨hact, hgr.symm⟩
    · simp [caseActiveId, hact] at hgr
  · rintro ⟨hact, rfl⟩
    obtain ⟨r, hr⟩ := List.exists_mem_of_ne_nil _ (classPiece_ne_nil txs st)
    refine ⟨r, hr, ?_⟩
    rw [classPiece_fst txs st r hr]
    simp [caseActiveId, hact]

theorem classPiece_signed (txs : List Transaction) (st : Student) :
    (classPiece txs st).filterMap (fun r => caseSignedAmount r.2)
      = if st.status = StudentStatus.active
        then (txs.filter (fun t => decide (t.student_id = st.id))).map signedAmount
        else [] := by
  by_cases hact : st.status = StudentStatus.active
  · rw [if_pos hact]
    have hts : txs.filter (fun t =>
        decide (t.student_id = st.id ∧ st.status = StudentStatus.active))
        = txs.filter (fun t => decide (t.student_id = st.id)) :=
      List.filter_congr (by
        intro t ht
        simp [hact])
    simp only [classPiece, hts]
    by_cases hemp : (txs.filter (fun t => decide (t.student_id = st.id))).isEmpty
    · rw [if_pos hemp]
      rw [List.isEmpty_iff] at hemp
      rw [hemp]
      simp [caseSignedAmount]
    · rw [if_neg hemp]
      rw [List.filterMap_map]
      have hcomp : ((fun r : Option Student × Option Transaction => caseSignedAmount r.2)
          ∘ (fun t : Transaction => ((some st : Option Student), (some t : Option Transaction))))
          = (some ∘ signedAmount : Transaction → Option ℚ) := rfl
      rw [hcomp, List.filterMap_eq_map]
  · rw [if_neg hact]
    have hnil : txs.filter (fun t =>
        decide (t.student_id = st.id ∧ st.status = StudentStatus.active)) = [] :=
      List.filter_eq_nil_iff.mpr (by
        intro t ht
        simp [hact])
    simp only [classPiece]
    rw [hnil]
    simp [caseSignedAmount]

theorem filterMap_id_map (l : List α) (f : α → Option β) :
    (l.map f).filterMap id = l.filterMap f := by
  induction l with
  | nil => rfl
  | cons a l ih =>
    cases h : f a <;> simp [List.filterMap_cons, h, ih]

theorem filterMap_id_map_some (l : List α) (f : α → β) :
    (l.map (fun a => some (f a))).filterMap id = l.map f := by
  induction l with
  | nil => rfl
  | cons a l ih => simp [List.filterMap_cons, ih]

theorem count_ids (sts : List Student) (txs : List Transaction)
    (hnd : (sts.map (·.id)).Nodup) :
    ((sts.flatMap (classPiece txs)).filterMap (fun r => caseActiveId r.1)).dedup.length
      = (sts.filter (fun st => decide (st.status = StudentStatus.active))).length := by
  rw [filterMap_flatMap]
  have hmemiff : ∀ x, x ∈ sts.flatMap
        (fun st => (classPiece txs st).filterMap (fun r => caseActiveId r.1))
      ↔ x ∈ (sts.filter (fun st => decide (st.status = StudentStatus.active))).map (·.id) := by
    intro x
    rw [List.mem_flatMap]
    constructor
    · rintro ⟨st, hst, hx⟩
      rcases (classPiece_ids_mem txs st x).mp hx with ⟨hact, rfl⟩
      exact List.mem_map.mpr ⟨st, List.mem_filter.mpr ⟨hst, by simpa using hact⟩, rfl⟩
    · rintro hx
      rcases List.mem_map.mp hx with ⟨st, hstf, rfl⟩
      rw [List.mem_filter] at hstf
      exact ⟨st, hstf.1,
        (classPiece_ids_mem txs st st.id).mpr ⟨by simpa using hstf.2, rfl⟩⟩
  have hnd2 : ((sts.filter (fun st =>
      decide (st.status = StudentStatus.active))).map (·.id)).Nodup :=
    hnd.sublist ((List.filter_sublist sts).map (·.id))
  have htf : (sts.flatMap
        (fun st => (classPiece txs st).filterMap (fun r => caseActiveId r.1))).toFinset
      = ((sts.filter (fun st =>
          decide (st.status = StudentStatus.active))).map (·.id)).toFinset := by
    ext x
    simp only [List.mem_toFinset]
    exact hmemiff x
  calc (sts.flatMap
        (fun st => (classPiece txs st).filterMap (fun r => caseActiveId r.1))).dedup.length
      = (sts.flatMap
          (fun st => (classPiece txs st).filterMap (fun r => caseActiveId r.1))).toFinset.card :=
        (List.card_toFinset _).symm
    _ = ((sts.filter (fun st =>
          decide (st.status = StudentStatus.active))).map (·.id)).toFinset.card := by
        rw [htf]
    _ = ((sts.filter (fun st =>
          decide (st.status = StudentStatus.active))).map (·.id)).dedup.length :=
        List.card_toFinset _
    _ = ((sts.filter (fun st =>
          decide (st.status = StudentStatus.active))).map (·.id)).length := by
        rw [hnd2.dedup]
    _ = (sts.filter (fun st => decide (st.status = StudentStatus.active))).length :=
        List.length_map _ _

theorem sqlSumAgg_ne_nil {l : List ℚ} (h : l ≠ []) : sqlSumAgg l = some l.sum := by
  unfold sqlSumAgg
  rw [if_neg (by simpa [List.isEmpty_iff] using h)]

theorem classRow_eq_spec (s : Store) (c : Class)
    (hnd : (s.students.map (·.id)).Nodup) :
    classRow s c = classRowSpec s c := by
  have hCAS : classActiveStudents s c
      = (s.students.filter (fun st => decide (st.class_id = c.id))).filter
        (fun st => decide (st.status = StudentStatus.active)) := by
    unfold classActiveStudents
    rw [List.filter_filter]
    apply List.filter_congr
    intro st hst
    by_cases h1 : st.class_id = c.id <;> by_cases h2 : st.status = StudentStatus.active <;>
      simp [h1, h2]
  by_cases hempty : (s.students.filter (fun st => decide (st.class_id = c.id))).isEmpty
  · have hnil := List.isEmpty_iff.mp hempty
    have hrows : classJoinRows s c = [(none, none)] := by
      simp only [classJoinRows]
      rw [if_pos hempty]
    have hcasnil : classActiveStudents s c = [] := by
      rw [hCAS, hnil]
      rfl
    have htxnil : classTxRows s c = [] := by
      unfold classTxRows
      rw [hcasnil]
      rfl
    simp [classRow, classRowSpec, hrows, hcasnil, htxnil, sqlSum, sqlSumAgg,
      sqlCountDistinct, sqlAvg, caseDepositAmount, caseSignedAmount, caseActiveId]
  · have hne : s.students.filter (fun st => decide (st.class_id = c.id)) ≠ [] := by
      intro h
      exact hempty (List.isEmpty_iff.mpr h)
    have hrows : classJoinRows s c
        = (s.students.filter (fun st => decide (st.class_id = c.id))).flatMap
          (classPiece s.transactions) := by
      simp only [classJoinRows]
      rw [if_neg hempty]
    have hrowsne : (s.students.filter (fun st => decide (st.class_id = c.id))).flatMap
        (classPiece s.transactions) ≠ [] :=
      flatMap_ne_nil_of_pieces _ _ hne (classPiece_ne_nil s.transactions)
    simp only [classRow, classRowSpec]
    rw [hrows]
    simp only [ClassLeaderboard.mk.injEq]
    refine ⟨trivial, trivial, ?_, ?_, ?_⟩
    · unfold sqlSum
      rw [filterMap_id_map_some]
      rw [sqlSumAgg_ne_nil (by
        intro h
        exact hrowsne (List.map_eq_nil_iff.mp h))]
      rw [Option.getD_some, sum_map_flatMap]
      rw [List.map_congr_left (fun st _ => classPiece_deposit_sum s.transactions st)]
      rw [sum_map_ite_filter (s.students.filter (fun st => decide (st.class_id = c.id)))
        (fun st : Student => st.status = StudentStatus.active)
        (fun st : Student => ((s.transactions.filter (fun t =>
          decide (t.student_id = st.id ∧ t.type = TransactionType.deposit))).map (·.amount)).sum)]
      rw [← hCAS]
      rfl
    · unfold sqlCountDistinct
      rw [filterMap_id_map]
      rw [count_ids (s.students.filter (fun st => decide (st.class_id = c.id))) s.transactions
        (hnd.sublist ((List.filter_sublist s.students).map (·.id)))]
      rw [hCAS]
    · have hsigned : (((s.students.filter (fun st => decide (st.class_id = c.id))).flatMap
          (classPiece s.transactions)).map (fun r => caseSignedAmount r.2)).filterMap id
          = (classTxRows s c).map signedAmount := by
        rw [filterMap_id_map, filterMap_flatMap,
          flatMap_congr (fun st _ => classPiece_signed s.transactions st),
          flatMap_ite_filter (s.students.filter (fun st => decide (st.class_id = c.id)))
            (fun st : Student => st.status = StudentStatus.active)
            (fun st : Student => (s.transactions.filter (fun t =>
              decide (t.student_id = st.id))).map signedAmount)]
        unfold classTxRows
        rw [hCAS, map_flatMap_comm]
      simp only [sqlAvg]
      rw [hsigned]
      by_cases hemp2 : (classTxRows s c).isEmpty
      · have h0 := List.isEmpty_iff.mp hemp2
        rw [h0]
        simp
      · have hmapne : ((classTxRows s c).map signedAmount).isEmpty ≠ true := by
          intro h
          rw [List.isEmpty_iff, List.map_eq_nil_iff] at h
          exact hemp2 (List.isEmpty_iff.mpr h)
        rw [if_neg hmapne, Option.getD_some, if_neg hemp2, List.length_map]

/-- C5: `getClassLeaderboard` returns exactly one row per class (here: the
unlimited result is a permutation of the per-class rows), where
`total_deposits` is the sum of deposit amounts over the class's active
students, `total_students` counts the distinct active students of the class
regardless of transactions, and `average_balance` is the mean of signed
per-transaction contributions over the class's active students' transaction
rows; a class with no active students appears with all three values 0. -/
theorem getClassLeaderboard_rows (s : Store)
    (hnd : (s.students.map (·.id)).Nodup) :
    (getClassLeaderboard s none).Perm
        (s.classes.map (fun c => classRowSpec s c)) ∧
      (∀ c, classActiveStudents s c = [] →
        classRowSpec s c = ⟨c.id, c.name, 0, 0, 0⟩) := by
  constructor
  · have hmap : s.classes.map (fun c => classRow s c)
        = s.classes.map (fun c => classRowSpec s c) :=
      List.map_congr_left (fun c _ => classRow_eq_spec s c hnd)
    simp only [getClassLeaderboard, applyLimit]
    rw [hmap]
    exact sortDesc_perm _ _
  · intro c h0
    have htx : classTxRows s c = [] := by
      unfold classTxRows
      rw [h0]
      rfl
    simp [classRowSpec, h0, htx]

/-- Witness for C5: the sample store has unique student ids; its class
leaderboard is a permutation of the spec-side per-class rows (class 2, with a
graduated student only, gets 0/0/0). -/
theorem getClassLeaderboard_rows_witness :
    (sampleStore.students.map (·.id)).Nodup ∧
      (getClassLeaderboard sampleStore none).Perm
        (sampleStore.classes.map (fun c => classRowSpec sampleStore c)) := by
  have hnd : (sampleStore.students.map (·.id)).Nodup := by decide
  exact ⟨hnd, (getClassLeaderboard_rows sampleStore hnd).1⟩

end Tabungan
